import Mathlib

/-
Verification of the conversation-context assembly and budget-aware request
shaping core of the BankGPT chat-completion proxy.

The JavaScript source is embedded shallowly: strings are `List Char`
(`Str`), JS numbers used for money are `ℚ`, token counts are `ℕ`, and
fallible operations return `Except`/`Option`.  Each definition mirrors the
correspondingly named function of the source.
-/

set_option maxRecDepth 4000

namespace BankGPT

/-! ### String primitives (JS string operations on `List Char`) -/

abbrev Str := List Char

/-- Character list of a string literal. -/
def str (s : String) : Str := s.data

/-- JS `String.prototype.toLowerCase` restricted to ASCII. -/
def lowerL (s : Str) : Str := s.map Char.toLower

/-- JS regex `\w` character class: `[A-Za-z0-9_]`. -/
def isWordChar (c : Char) : Bool := c.isAlphanum || c == '_'

/-- JS regex `\s` character class (common ASCII whitespace). -/
def isSpaceChar (c : Char) : Bool :=
  c == ' ' || c == '\t' || c == '\n' || c == '\r' || c == '\x0b' || c == '\x0c'

/-- Whether `needle` occurs at the start of `hay`. -/
def leadsWith : Str → Str → Bool
  | [], _ => true
  | _ :: _, [] => false
  | a :: as, b :: bs => a == b && leadsWith as bs

/-- JS `String.prototype.includes`: substring occurrence. -/
def hasSub (needle : Str) : Str → Bool
  | [] => needle.isEmpty
  | c :: rest => leadsWith needle (c :: rest) || hasSub needle rest

/-- Replace every maximal whitespace run by a single space
(JS `replace(/\s+/g, ' ')`); `prevSpace` records whether the previous
character belonged to a run already emitted. -/
def collapseWsAux : Bool → Str → Str
  | _, [] => []
  | prevSpace, c :: rest =>
    if isSpaceChar c then
      if prevSpace then collapseWsAux true rest
      else ' ' :: collapseWsAux true rest
    else c :: collapseWsAux false rest

def collapseWs (s : Str) : Str := collapseWsAux false s

/-- JS `String.prototype.trim`: strip leading and trailing whitespace. -/
def trimWs (s : Str) : Str :=
  ((s.dropWhile isSpaceChar).reverse.dropWhile isSpaceChar).reverse

/-- JS `Array.prototype.join(', ')`. -/
def joinComma : List Str → Str
  | [] => []
  | [x] => x
  | x :: y :: rest => x ++ str ", " ++ joinComma (y :: rest)

/-! ### Data model -/

inductive Role where
  | system
  | user
  | assistant
deriving DecidableEq

/-- One chat message: `{ role, content }`. -/
structure Turn where
  role : Role
  content : Str
deriving DecidableEq

/-! ### TokenOptimizer (src/unnamed/part_003, lines 156–223) -/

namespace TokenOptimizer

/-- `estimateTokens(text)`: `Math.ceil(text.length / 4)`. -/
def estimateTokens (text : Str) : ℕ := (text.length + 3) / 4

/-- The `bankingKeywords` table of `extractTopics`: topic name paired with
its keyword list, in source order. -/
def entSavings : Str × List Str := (str "savings", [str "savings", str "save", str "interest"])

def entCredit : Str × List Str := (str "credit", [str "credit", str "score", str "report"])

def entInvestment : Str × List Str := (str "investment", [str "invest", str "portfolio", str "stocks"])

def entBudget : Str × List Str := (str "budget", [str "budget", str "expenses", str "spending"])

def entLoans : Str × List Str := (str "loans", [str "loan", str "mortgage", str "debt"])

def bankingKeywords : List (Str × List Str) :=
  [entSavings, entCredit, entInvestment, entBudget, entLoans]

/-- `keywords.some(keyword => text.includes(keyword))` over the lowercased
content of a turn. -/
def kwMatch (tk : Str × List Str) (turn : Turn) : Bool :=
  tk.2.any (fun kw => hasSub kw (lowerL turn.content))

/-- One step of the inner `Object.entries(bankingKeywords).forEach`:
`topics.add(topic)` on a JS `Set` appends the topic name unless already
present. -/
def addTopic (turn : Turn) (topics : List Str) (tk : Str × List Str) : List Str :=
  if kwMatch tk turn ∧ tk.1 ∉ topics then topics ++ [tk.1] else topics

/-- `extractTopics(history)`: scan each turn, adding every topic one of
whose keywords occurs in the turn's lowercased content; `Array.from` of a
JS `Set` preserves insertion order. -/
def extractTopics (history : List Turn) : List Str :=
  history.foldl (fun topics turn => bankingKeywords.foldl (addTopic turn) topics) []

/-- Content of the synthetic summary turn. -/
def summaryContent (topics : List Str) : Str :=
  str "Previous conversation covered: " ++ joinComma topics

/-- `summarizeHistory(history)`: histories of length at most 2 are returned
unchanged; otherwise the turns other than the last two (`slice(0, -2)`)
are replaced by one system-role summary turn followed by the last two
turns (`slice(-2)`). -/
def summarizeHistory (history : List Turn) : List Turn :=
  if history.length ≤ 2 then history
  else
    ⟨.system, summaryContent (extractTopics (history.take (history.length - 2)))⟩ ::
      history.drop (history.length - 2)

/-- Modelled from the spec: `this.formatHistory`, called by
`optimizePrompt` to re-estimate the remaining history, is not defined
anywhere in the repository.  The spec only says the running estimate is
recomputed over the remaining history turns, so we model the formatter as
the concatenation of the turns' contents; the theorems that depend on a
formatter quantify over it. -/
def formatHistory (history : List Turn) : Str :=
  (history.map Turn.content).foldr (· ++ ·) []

/-- The `while` loop of `optimizePrompt`: while the running estimate
exceeds the budget and history remains, drop the oldest turn and
recompute the estimate as
`estimate(system) + estimate(user) + estimate(formatHistory(rest))`
(`base` is `estimate(system) + estimate(user)`).  Returns the final
running estimate together with the remaining history. -/
def truncateLoop (fmt : List Turn → Str) (maxTokens base : ℕ)
    (current : ℕ) (history : List Turn) : ℕ × List Turn :=
  if current ≤ maxTokens then (current, history)
  else
    match history with
    | [] => (current, [])
    | _ :: rest => truncateLoop fmt maxTokens base (base + estimateTokens (fmt rest)) rest
termination_by structural history

/-- `optimizePrompt(systemPrompt, conversationHistory, userMessage)` with
the budget (`const maxTokens = 3500` in the source) and the missing
`formatHistory` generalized to parameters.  The initial running estimate
covers only the system prompt and the user message; after the truncation
loop the history is summarized when the final estimate still exceeds the
budget. -/
def optimizePromptWith (maxTokens : ℕ) (fmt : List Turn → Str)
    (systemPrompt : Str) (conversationHistory : List Turn) (userMessage : Str) :
    List Turn :=
  let base := estimateTokens systemPrompt + estimateTokens userMessage
  let r := truncateLoop fmt maxTokens base base conversationHistory
  if r.1 > maxTokens then summarizeHistory r.2 else r.2

/-- `optimizePrompt` with the source's hard-coded budget of 3500. -/
def optimizePrompt (fmt : List Turn → Str) (systemPrompt : Str)
    (conversationHistory : List Turn) (userMessage : Str) : List Turn :=
  optimizePromptWith 3500 fmt systemPrompt conversationHistory userMessage

end TokenOptimizer

/-! ### CacheStrategy (src/unnamed/part_003, lines 88–150) -/

/-- Result of an `await redis.get(key)`: the promise either rejects with an
error, resolves to `null`, or resolves to the stored string. -/
abbrev StoreRes := Except Str (Option Str)

namespace CacheStrategy

/-- `normalizeMessage(message)`: lower-case, strip characters that are
neither word nor whitespace characters (`replace(/[^\w\s]/g, '')`),
collapse whitespace runs (`replace(/\s+/g, ' ')`), trim. -/
def normalizeMessage (message : Str) : Str :=
  trimWs (collapseWs ((lowerL message).filter (fun c => isWordChar c || isSpaceChar c)))

/-- `getCachedResponse(message)` of `CacheStrategy`.  The `redis.get`
calls and `JSON.parse` are not wrapped in any `try`, so a backing-store
rejection or a parse exception propagates to the caller; this is the
`Except.error` branch.  The undefined helper `findSimilarQuestion` and
`JSON.parse` are abstracted as the parameters `findSim` and `parse`. -/
def getCachedResponse {V : Type} (store : Str → StoreRes) (findSim : Str → StoreRes)
    (parse : Str → Except Str V) (message : Str) : Except Str (Option (V × Str)) :=
  let normalizedMessage := normalizeMessage message
  match store (str "exact:" ++ normalizedMessage) with
  | .error e => .error e
  | .ok (some cached) =>
    match parse cached with
    | .error e => .error e
    | .ok r => .ok (some (r, str "exact_cache"))
  | .ok none =>
    match findSim normalizedMessage with
    | .error e => .error e
    | .ok none => .ok none
    | .ok (some similarKey) =>
      match store (str "similar:" ++ similarKey) with
      | .error e => .error e
      | .ok none => .ok none
      | .ok (some cached) =>
        match parse cached with
        | .error e => .error e
        | .ok r => .ok (some (r, str "similar_cache"))

end CacheStrategy

/-! ### CacheService (src/docs/TECHNICAL_ARCHITECTURE.md, lines 350–396) -/

/-- A cached chat response: the payload plus the `fromCache` flag the
service sets before returning it. -/
structure CachedResponse where
  text : Str
  fromCache : Bool
deriving DecidableEq

namespace CacheService

/-- `createCacheKey(message)`: lower-case, strip non-word non-space
characters, trim (this variant does not collapse whitespace), then
key-space tag.  The source base64-encodes the normalized string
(`Buffer.from(normalized).toString('base64')`), an injective
representation detail we keep as the normalized string itself. -/
def createCacheKey (message : Str) : Str :=
  str "response:" ++ trimWs ((lowerL message).filter (fun c => isWordChar c || isSpaceChar c))

/-- `getCachedResponse(userMessage)` of `CacheService`.  The whole lookup
(`redis.get` and `JSON.parse`) sits in a `try` whose `catch` only logs, so
every failure falls through to `return null`: the result type is a plain
`Option`, errors never escape.  `parse` abstracts `JSON.parse`, returning
`none` when the stored payload is unparsable. -/
def getCachedResponse (store : Str → StoreRes) (parse : Str → Option CachedResponse)
    (userMessage : Str) : Option CachedResponse :=
  let cacheKey := createCacheKey userMessage
  match store cacheKey with
  | .error _ => none
  | .ok none => none
  | .ok (some cached) =>
    match parse cached with
    | none => none
    | some r => some { r with fromCache := true }

end CacheService

/-! ### CostTracker (src/unnamed/part_003, lines 232–309) -/

/-- OpenAI usage metadata attached to a completion. -/
structure Usage where
  prompt_tokens : ℕ
  completion_tokens : ℕ
  total_tokens : ℕ
deriving DecidableEq

namespace CostTracker

/-- The `pricing` table of `calculateCost` (dollars per 1K tokens) with
the fallback `pricing[model] || pricing['gpt-3.5-turbo']`, restricted to
model strings that are not `Object.prototype` member names.  JS property
access walks the prototype chain, so for names such as `toString` the
lookup is truthy and the fallback does not fire; `pricingAccess`,
`modelPricingOf` and `calculateCostJs` below model that full semantics,
and on every non-prototype-member string this restriction agrees with it
(`calculateCostJs_agrees`). -/
def pricingFor (model : Str) : ℚ × ℚ :=
  if model = str "gpt-3.5-turbo" then (0.0005, 0.0015)
  else if model = str "gpt-4" then (0.03, 0.06)
  else (0.0005, 0.0015)

/-- `calculateCost(usage, model)`:
`usage.prompt_tokens * input / 1000 + usage.completion_tokens * output / 1000`,
on the domain where the pricing lookup yields proper rates (see
`calculateCostJs` for the full JS semantics including the NaN case). -/
def calculateCost (usage : Usage) (model : Str) : ℚ :=
  usage.prompt_tokens * (pricingFor model).1 / 1000 +
    usage.completion_tokens * (pricingFor model).2 / 1000

/-- Property names a plain object literal inherits from
`Object.prototype`; accessing any of them yields a truthy value (a
built-in function, or the prototype object for `__proto__`). -/
def objectProtoMembers : List Str :=
  [str "constructor", str "hasOwnProperty", str "isPrototypeOf",
   str "propertyIsEnumerable", str "toLocaleString", str "toString", str "valueOf",
   str "__proto__", str "__defineGetter__", str "__defineSetter__",
   str "__lookupGetter__", str "__lookupSetter__"]

/-- The value of `pricing[model] || pricing['gpt-3.5-turbo']`: either a
rate record of the table, or a truthy value inherited from
`Object.prototype` whose `input`/`output` fields are `undefined`. -/
inductive PricingVal where
  | rates (input output : ℚ)
  | inherited
deriving DecidableEq

/-- The raw property access `pricing[model]`: the two own keys give their
rate records; `Object.prototype` member names give an inherited truthy
value; every other name gives `undefined` (`none`), which is falsy. -/
def pricingAccess (model : Str) : Option PricingVal :=
  if model = str "gpt-3.5-turbo" then some (.rates 0.0005 0.0015)
  else if model = str "gpt-4" then some (.rates 0.03 0.06)
  else if model ∈ objectProtoMembers then some .inherited
  else none

/-- `const modelPricing = pricing[model] || pricing['gpt-3.5-turbo']`:
the fallback fires only when the access is falsy (`undefined`). -/
def modelPricingOf (model : Str) : PricingVal :=
  match pricingAccess model with
  | some v => v
  | none => .rates 0.0005 0.0015

/-- `calculateCost` under full JS semantics: when `modelPricing` is an
inherited `Object.prototype` member, `modelPricing.input` and
`modelPricing.output` are `undefined`, and every arithmetic step on them
produces `NaN`, modelled as `none`. -/
def calculateCostJs (usage : Usage) (model : Str) : Option ℚ :=
  match modelPricingOf model with
  | .rates input output =>
    some (usage.prompt_tokens * input / 1000 + usage.completion_tokens * output / 1000)
  | .inherited => none

inductive AlertLevel where
  | info
  | warning
  | critical
deriving DecidableEq

/-- An alert emitted by `sendAlert(level, message)`; the interpolated
dollar amount of the source message is omitted. -/
structure Alert where
  level : AlertLevel
  message : Str
deriving DecidableEq

/-- The mutable `this.dailyUsage` counters together with the configured
`budgetLimits.daily` (`parseFloat(process.env.DAILY_COST_LIMIT) || 50`). -/
structure TrackerState where
  totalTokens : ℕ
  totalCost : ℚ
  requestCount : ℕ
  dailyLimit : ℚ

/-- The constructor's fresh `dailyUsage` counters. -/
def mkTracker (dailyLimit : ℚ) : TrackerState :=
  { totalTokens := 0, totalCost := 0, requestCount := 0, dailyLimit := dailyLimit }

/-- `checkBudgetAlerts()`: one `sendAlert` for the highest threshold the
current daily percentage reaches, none below 50%.  The tracker keeps no
record of alerts already sent. -/
def checkBudgetAlerts (t : TrackerState) : List Alert :=
  let dailyPercentage := t.totalCost / t.dailyLimit * 100
  if dailyPercentage ≥ 90 then [⟨.critical, str "Daily budget 90% exceeded"⟩]
  else if dailyPercentage ≥ 75 then [⟨.warning, str "Daily budget 75% reached"⟩]
  else if dailyPercentage ≥ 50 then [⟨.info, str "Daily budget 50% reached"⟩]
  else []

/-- `trackUsage(usage, model)`: compute the cost, add tokens/cost/count to
the daily counters, then evaluate `checkBudgetAlerts` on the updated
state.  Returns the updated state, the alerts emitted by this call, and
the returned cost. -/
def trackUsage (t : TrackerState) (usage : Usage) (model : Str) :
    TrackerState × List Alert × ℚ :=
  let cost := calculateCost usage model
  let t' : TrackerState :=
    { t with
      totalTokens := t.totalTokens + usage.total_tokens
      totalCost := t.totalCost + cost
      requestCount := t.requestCount + 1 }
  (t', checkBudgetAlerts t', cost)

end CostTracker

/-! ### OpenAIService (src/docs/TECHNICAL_ARCHITECTURE.md, lines 146–254) -/

/-- One stored conversation exchange: `{ user, assistant }`. -/
structure Exchange where
  user : Str
  assistant : Str
deriving DecidableEq

namespace OpenAIService

/-- `formatConversationHistory(systemPrompt, history, currentMessage)`:
the system prompt first, then the last ten exchanges (`history.slice(-10)`)
expanded into user/assistant pairs, then the current message as a user
turn. -/
def formatConversationHistory (systemPrompt : Str) (history : List Exchange)
    (currentMessage : Str) : List Turn :=
  ⟨.system, systemPrompt⟩ ::
    (((history.drop (history.length - 10)).map
        (fun item => [Turn.mk .user item.user, Turn.mk .assistant item.assistant])).foldr
          (· ++ ·) [] ++
      [⟨.user, currentMessage⟩])

/-- Outcome of the single `this.client.chat.completions.create` call, as
the surrounding `try` observes it: success, or an exception carrying
`error.message` — thrown by the client library on a connection/timeout
failure, on a non-2xx HTTP status, or on an unparsable 200 body. -/
inductive UpstreamOutcome where
  | success (text : Str) (usage : Usage)
  | connectionError (message : Str)
  | httpError (status : ℕ) (message : Str)
  | unparsableBody (message : Str)

/-- The `error.message` the `catch` block sees, when the outcome failed. -/
def errMessageOf : UpstreamOutcome → Option Str
  | .success _ _ => none
  | .connectionError m => some m
  | .httpError _ m => some m
  | .unparsableBody m => some m

/-- A successful gateway result: `{ text, usage }`. -/
structure GenResult where
  text : Str
  usage : Usage
deriving DecidableEq

/-- `generateResponse`'s handling of the completion call: on success it
returns text and usage; the `catch (error)` block handles every failure
identically, rethrowing `new Error('OpenAI API Error: ' + error.message)`. -/
def generateResponse (outcome : UpstreamOutcome) : Except Str GenResult :=
  match outcome with
  | .success text usage => .ok ⟨text, usage⟩
  | .connectionError m => .error (str "OpenAI API Error: " ++ m)
  | .httpError _ m => .error (str "OpenAI API Error: " ++ m)
  | .unparsableBody m => .error (str "OpenAI API Error: " ++ m)

end OpenAIService

/-! ### Helper lemmas about `extractTopics` -/

namespace TokenOptimizer

/-- The topic sublist selected by five Booleans, one per topic in table
order. -/
def selTopics (b1 b2 b3 b4 b5 : Bool) : List Str :=
  (if b1 then [str "savings"] else []) ++ (if b2 then [str "credit"] else []) ++
    (if b3 then [str "investment"] else []) ++ (if b4 then [str "budget"] else []) ++
    (if b5 then [str "loans"] else [])

/-- The topics a single turn matches, in table order. -/
def singleTopics (turn : Turn) : List Str :=
  (bankingKeywords.filter (fun tk => kwMatch tk turn)).map Prod.fst

theorem fstSavings : entSavings.1 = str "savings" := rfl

theorem fstCredit : entCredit.1 = str "credit" := rfl

theorem fstInvestment : entInvestment.1 = str "investment" := rfl

theorem fstBudget : entBudget.1 = str "budget" := rfl

theorem fstLoans : entLoans.1 = str "loans" := rfl

/-- Folding `addTopic` over topic entries with pairwise-distinct names,
none already accumulated, appends exactly the matching names in order. -/
theorem foldl_addTopic (turn : Turn) :
    ∀ (tks : List (Str × List Str)) (acc : List Str),
      (tks.map Prod.fst).Nodup → (∀ n ∈ tks.map Prod.fst, n ∉ acc) →
      tks.foldl (addTopic turn) acc =
        acc ++ (tks.filter (fun tk => kwMatch tk turn)).map Prod.fst
  | [], acc, _, _ => by simp
  | tk :: rest, acc, hnd, hdisj => by
    simp only [List.map_cons, List.nodup_cons] at hnd
    by_cases hm : (kwMatch tk turn : Bool) = true
    · have hni : tk.1 ∉ acc := hdisj tk.1 (by simp)
      have hstep : addTopic turn acc tk = acc ++ [tk.1] := by
        unfold addTopic; rw [if_pos ⟨hm, hni⟩]
      have hdisj' : ∀ n ∈ rest.map Prod.fst, n ∉ acc ++ [tk.1] := by
        intro n hn
        simp only [List.mem_append, List.mem_singleton]
        rintro (h1 | h2)
        · exact hdisj n (by simp [hn]) h1
        · exact hnd.1 (h2 ▸ hn)
      calc (tk :: rest).foldl (addTopic turn) acc
          = rest.foldl (addTopic turn) (acc ++ [tk.1]) := by
            rw [List.foldl_cons, hstep]
        _ = (acc ++ [tk.1]) ++ (rest.filter (fun tk => kwMatch tk turn)).map Prod.fst :=
            foldl_addTopic turn rest (acc ++ [tk.1]) hnd.2 hdisj'
        _ = acc ++ ((tk :: rest).filter (fun tk => kwMatch tk turn)).map Prod.fst := by
            rw [List.filter_cons, if_pos hm]
            simp
    · have hstep : addTopic turn acc tk = acc := by
        unfold addTopic
        rw [if_neg (fun hc => hm hc.1)]
      rw [List.foldl_cons, hstep,
        foldl_addTopic turn rest acc hnd.2 (fun n hn => hdisj n (by simp [hn])),
        List.filter_cons, if_neg (by simp [hm])]

theorem extractTopics_single (turn : Turn) : extractTopics [turn] = singleTopics turn := by
  unfold extractTopics singleTopics
  rw [List.foldl_cons, List.foldl_nil]
  exact foldl_addTopic turn bankingKeywords [] (by decide) (by simp)

theorem singleTopics_eq_sel (turn : Turn) :
    singleTopics turn =
      selTopics (kwMatch entSavings turn) (kwMatch entCredit turn)
        (kwMatch entInvestment turn) (kwMatch entBudget turn) (kwMatch entLoans turn) := by
  unfold singleTopics bankingKeywords
  cases hb1 : kwMatch entSavings turn <;> cases hb2 : kwMatch entCredit turn <;>
    cases hb3 : kwMatch entInvestment turn <;> cases hb4 : kwMatch entBudget turn <;>
    cases hb5 : kwMatch entLoans turn <;>
    simp [List.filter_cons, hb1, hb2, hb3, hb4, hb5, selTopics, fstSavings, fstCredit,
      fstInvestment, fstBudget, fstLoans]

/-- A synthetic summary turn reproduces under `singleTopics` exactly the
topics it names: each topic name contains one of its own keywords, no
name contains a keyword of a different topic, and the fixed summary
wording matches no keyword. -/
theorem singleTopics_summary_fix (b1 b2 b3 b4 b5 : Bool) :
    singleTopics ⟨Role.system, summaryContent (selTopics b1 b2 b3 b4 b5)⟩ =
      selTopics b1 b2 b3 b4 b5 := by
  cases b1 <;> cases b2 <;> cases b3 <;> cases b4 <;> cases b5 <;> decide

/-- Summarizing a summary turn plus the two kept turns changes nothing. -/
theorem extractTopics_summary_self (turn : Turn) :
    extractTopics [Turn.mk Role.system (summaryContent (extractTopics [turn]))] =
      extractTopics [turn] := by
  rw [extractTopics_single turn, singleTopics_eq_sel turn, extractTopics_single,
    singleTopics_summary_fix]

/-- Membership in one turn's `addTopic` fold. -/
theorem mem_foldl_addTopic (turn : Turn) (t : Str) :
    ∀ (tks : List (Str × List Str)) (acc : List Str),
      (t ∈ tks.foldl (addTopic turn) acc ↔
        t ∈ acc ∨ ∃ tk ∈ tks, tk.1 = t ∧ kwMatch tk turn)
  | [], acc => by simp
  | tk :: rest, acc => by
    rw [List.foldl_cons, mem_foldl_addTopic turn t rest (addTopic turn acc tk)]
    have hone : t ∈ addTopic turn acc tk ↔ t ∈ acc ∨ (tk.1 = t ∧ kwMatch tk turn) := by
      unfold addTopic
      split_ifs with hc
      · simp only [List.mem_append, List.mem_singleton]
        constructor
        · rintro (h | h)
          · exact Or.inl h
          · exact Or.inr ⟨h.symm, hc.1⟩
        · rintro (h | h)
          · exact Or.inl h
          · exact Or.inr h.1.symm
      · constructor
        · exact Or.inl
        · rintro (h | ⟨heq, hm⟩)
          · exact h
          · by_cases hmem : tk.1 ∈ acc
            · exact heq ▸ hmem
            · exact absurd ⟨hm, hmem⟩ hc
    rw [hone]
    constructor
    · rintro ((h | h) | ⟨tk', htk', h1, h2⟩)
      · exact Or.inl h
      · exact Or.inr ⟨tk, by simp, h.1, h.2⟩
      · exact Or.inr ⟨tk', by simp [htk'], h1, h2⟩
    · rintro (h | ⟨tk', htk', h1, h2⟩)
      · exact Or.inl (Or.inl h)
      · rcases List.mem_cons.mp htk' with heq | hmem
        · exact Or.inl (Or.inr (heq ▸ ⟨h1, h2⟩))
        · exact Or.inr ⟨tk', hmem, h1, h2⟩

/-- Membership characterization of `extractTopics`: a topic is extracted
exactly when it is a table topic one of whose keywords occurs in some
turn's lowercased content. -/
theorem mem_extractTopics (history : List Turn) (t : Str) :
    t ∈ extractTopics history ↔
      ∃ tk ∈ bankingKeywords, tk.1 = t ∧
        ∃ turn ∈ history, ∃ kw ∈ tk.2, hasSub kw (lowerL turn.content) := by
  have main : ∀ (hs : List Turn) (acc : List Str),
      t ∈ hs.foldl (fun topics turn => bankingKeywords.foldl (addTopic turn) topics) acc ↔
        t ∈ acc ∨ ∃ tk ∈ bankingKeywords, tk.1 = t ∧ ∃ turn ∈ hs, kwMatch tk turn := by
    intro hs
    induction hs with
    | nil => simp
    | cons turn rest ih =>
      intro acc
      rw [List.foldl_cons, ih, mem_foldl_addTopic]
      constructor
      · rintro ((h | ⟨tk, htk, h1, h2⟩) | ⟨tk, htk, h1, turn', hturn', h2⟩)
        · exact Or.inl h
        · exact Or.inr ⟨tk, htk, h1, turn, by simp, h2⟩
        · exact Or.inr ⟨tk, htk, h1, turn', by simp [hturn'], h2⟩
      · rintro (h | ⟨tk, htk, h1, turn', hturn', h2⟩)
        · exact Or.inl (Or.inl h)
        · rcases List.mem_cons.mp hturn' with heq | hmem
          · exact Or.inl (Or.inr ⟨tk, htk, h1, heq ▸ h2⟩)
          · exact Or.inr ⟨tk, htk, h1, turn', hmem, h2⟩
  unfold extractTopics
  rw [main history []]
  simp only [List.mem_nil_iff, false_or]
  constructor
  · rintro ⟨tk, htk, h1, turn, hturn, h2⟩
    exact ⟨tk, htk, h1, turn, hturn, List.any_eq_true.mp h2⟩
  · rintro ⟨tk, htk, h1, turn, hturn, kw, hkw, h2⟩
    exact ⟨tk, htk, h1, turn, hturn, List.any_eq_true.mpr ⟨kw, hkw, h2⟩⟩

end TokenOptimizer

/-! ### Concrete inputs used by counterexamples and witnesses -/

/-- A four-turn history (length between 3 and 20). -/
def hist4 : List Turn :=
  [⟨.user, str "I want savings advice"⟩, ⟨.assistant, str "sure"⟩,
   ⟨.user, str "what about my credit"⟩, ⟨.assistant, str "ok"⟩]

/-- A three-turn history. -/
def hist3 : List Turn :=
  [⟨.user, str "hi"⟩, ⟨.assistant, str "hello"⟩, ⟨.user, str "thanks"⟩]

/-- A 200-character system prompt: `estimateTokens` = 50. -/
def sysPromptEx : Str := List.replicate 200 'a'

/-- A 40-character user message: `estimateTokens` = 10. -/
def userMsgEx : Str := List.replicate 40 'b'

/-- Five history turns of 120 characters each: `estimateTokens` = 30 per
turn. -/
def histEx : List Turn := List.replicate 5 ⟨.user, List.replicate 120 'c'⟩

/-! ### Claim theorems -/

/-- C1 counterexample: with `estimate(system) = 50`, `estimate(user) = 10`,
budget 100 and five history turns of estimate 30 each, `optimizePrompt`
retains all five turns (its initial running estimate ignores the history,
so the truncation loop never runs), and the total estimate 210 exceeds the
budget — the claim says at most one turn would be retained and the total
would be ≤ 100. -/
theorem optimizePrompt_budget_counterexample :
    TokenOptimizer.estimateTokens sysPromptEx = 50 ∧
    TokenOptimizer.estimateTokens userMsgEx = 10 ∧
    TokenOptimizer.optimizePromptWith 100 TokenOptimizer.formatHistory
      sysPromptEx histEx userMsgEx = histEx ∧
    histEx.length = 5 ∧
    ¬ (TokenOptimizer.estimateTokens sysPromptEx + TokenOptimizer.estimateTokens userMsgEx +
        TokenOptimizer.estimateTokens (TokenOptimizer.formatHistory
          (TokenOptimizer.optimizePromptWith 100 TokenOptimizer.formatHistory
            sysPromptEx histEx userMsgEx)) ≤ 100) := by
  decide

/-- C1 (amended): whenever `estimate(system) + estimate(user) ≤ budget`,
`optimizePrompt` returns the conversation history entirely unchanged — no
turn is dropped and no summarization happens, whatever the history
formatter, so the emitted total estimate is not bounded by the budget. -/
theorem optimizePrompt_under_budget_keeps_history (maxTokens : ℕ)
    (fmt : List Turn → Str) (systemPrompt userMessage : Str) (history : List Turn)
    (hle : TokenOptimizer.estimateTokens systemPrompt +
      TokenOptimizer.estimateTokens userMessage ≤ maxTokens) :
    TokenOptimizer.optimizePromptWith maxTokens fmt systemPrompt history userMessage =
      history := by
  simp only [TokenOptimizer.optimizePromptWith]
  rw [TokenOptimizer.truncateLoop.eq_def, if_pos hle]
  simp only [gt_iff_lt]
  rw [if_neg (by omega)]

/-- C1 witness: the amended theorem applied at the example scenario's
budget 3500 (the source constant) with the concrete prompt and history. -/
theorem optimizePrompt_under_budget_keeps_history_witness :
    TokenOptimizer.estimateTokens sysPromptEx + TokenOptimizer.estimateTokens userMsgEx ≤ 3500 ∧
    TokenOptimizer.optimizePromptWith 3500 TokenOptimizer.formatHistory
      sysPromptEx histEx userMsgEx = histEx :=
  ⟨by decide,
    optimizePrompt_under_budget_keeps_history 3500 TokenOptimizer.formatHistory
      sysPromptEx userMsgEx histEx (by decide)⟩

/-- C3 counterexample: a three-turn history — length `K + 1 = 3` — is not
returned unchanged: its first turn is replaced by a synthetic summary
turn. -/
theorem summarizeHistory_len3_changes :
    hist3.length ≤ 3 ∧ TokenOptimizer.summarizeHistory hist3 ≠ hist3 := by
  decide

/-- C3 (amended): the History Summarizer returns its input unchanged only
for sequences of length at most `K = 2` (not `K + 1`); applying it twice
to any sequence of length at most `K + 1 = 3` still equals applying it
once, because a synthetic summary turn regenerates exactly its own topic
list. -/
theorem summarizeHistory_short_and_idem :
    (∀ h : List Turn, h.length ≤ 2 → TokenOptimizer.summarizeHistory h = h) ∧
    (∀ h : List Turn, h.length ≤ 3 →
      TokenOptimizer.summarizeHistory (TokenOptimizer.summarizeHistory h) =
        TokenOptimizer.summarizeHistory h) := by
  have short : ∀ h : List Turn, h.length ≤ 2 → TokenOptimizer.summarizeHistory h = h := by
    intro h hlen
    unfold TokenOptimizer.summarizeHistory
    rw [if_pos hlen]
  refine ⟨short, ?_⟩
  intro h hlen
  rcases h with _ | ⟨a, _ | ⟨b, _ | ⟨c, _ | ⟨d, t⟩⟩⟩⟩
  · rw [short [] (by simp), short [] (by simp)]
  · rw [short [a] (by simp), short [a] (by simp)]
  · rw [short [a, b] (by simp), short [a, b] (by simp)]
  · have h1 : TokenOptimizer.summarizeHistory [a, b, c] =
        [⟨Role.system, TokenOptimizer.summaryContent (TokenOptimizer.extractTopics [a])⟩,
          b, c] := by
      simp [TokenOptimizer.summarizeHistory]
    rw [h1]
    have h2 : TokenOptimizer.summarizeHistory
        [⟨Role.system, TokenOptimizer.summaryContent (TokenOptimizer.extractTopics [a])⟩, b, c] =
        [⟨Role.system, TokenOptimizer.summaryContent
            (TokenOptimizer.extractTopics
              [Turn.mk Role.system
                (TokenOptimizer.summaryContent (TokenOptimizer.extractTopics [a]))])⟩, b, c] := by
      simp [TokenOptimizer.summarizeHistory]
    rw [h2]
    rw [TokenOptimizer.extractTopics_summary_self]
  · simp at hlen

/-- C3 witness: the amended theorem at a two-turn history and at a
three-turn history. -/
theorem summarizeHistory_short_and_idem_witness :
    TokenOptimizer.summarizeHistory [⟨Role.user, str "one"⟩, ⟨Role.assistant, str "two"⟩] =
      [⟨Role.user, str "one"⟩, ⟨Role.assistant, str "two"⟩] ∧
    TokenOptimizer.summarizeHistory (TokenOptimizer.summarizeHistory
        [⟨Role.user, str "loan please"⟩, ⟨Role.assistant, str "ok"⟩, ⟨Role.user, str "thanks"⟩]) =
      TokenOptimizer.summarizeHistory
        [⟨Role.user, str "loan please"⟩, ⟨Role.assistant, str "ok"⟩, ⟨Role.user, str "thanks"⟩] :=
  ⟨summarizeHistory_short_and_idem.1 _ (by decide),
    summarizeHistory_short_and_idem.2 _ (by decide)⟩

/-- C9 counterexample: a four-turn history does not exceed the claimed
trigger threshold of 20 turns, yet the summarizer does not return it
unchanged — the source triggers summarization whenever the length exceeds
2. -/
theorem summarizeHistory_trigger_counterexample :
    hist4.length ≤ 20 ∧ TokenOptimizer.summarizeHistory hist4 ≠ hist4 := by
  decide

/-- C9 (amended): histories of length at most 2 (not 20) are returned
unchanged; a longer history becomes one synthetic system-role summary
turn followed by the last two turns in original order, and the summary's
topic list contains exactly the table topics one of whose keywords occurs
case-insensitively as a substring of some older turn's content. -/
theorem summarizeHistory_shape :
    (∀ h : List Turn, h.length ≤ 2 → TokenOptimizer.summarizeHistory h = h) ∧
    (∀ h : List Turn, 2 < h.length →
      TokenOptimizer.summarizeHistory h =
        ⟨Role.system, TokenOptimizer.summaryContent
            (TokenOptimizer.extractTopics (h.take (h.length - 2)))⟩ ::
          h.drop (h.length - 2)) ∧
    (∀ (h : List Turn) (t : Str), t ∈ TokenOptimizer.extractTopics h ↔
      ∃ tk ∈ TokenOptimizer.bankingKeywords, tk.1 = t ∧
        ∃ turn ∈ h, ∃ kw ∈ tk.2, hasSub kw (lowerL turn.content)) := by
  refine ⟨?_, ?_, TokenOptimizer.mem_extractTopics⟩
  · intro h hlen
    unfold TokenOptimizer.summarizeHistory
    rw [if_pos hlen]
  · intro h hlen
    unfold TokenOptimizer.summarizeHistory
    rw [if_neg (by omega)]

/-- C9 witness: the amended theorem at a one-turn history and at the
four-turn history. -/
theorem summarizeHistory_shape_witness :
    TokenOptimizer.summarizeHistory [⟨Role.user, str "hey"⟩] = [⟨Role.user, str "hey"⟩] ∧
    TokenOptimizer.summarizeHistory hist4 =
      ⟨Role.system, TokenOptimizer.summaryContent
          (TokenOptimizer.extractTopics (hist4.take 2))⟩ :: hist4.drop 2 :=
  ⟨summarizeHistory_shape.1 _ (by decide), by
    have h := summarizeHistory_shape.2.1 hist4 (by decide)
    simpa [hist4] using h⟩

/-- C5 (confirmed): every assembled message list starts with the
system-prompt turn and ends with a user turn carrying the new user
message verbatim; neither is ever dropped. -/
theorem assembler_endpoints (s u : Str) (h : List Exchange) :
    (OpenAIService.formatConversationHistory s h u).head? = some ⟨Role.system, s⟩ ∧
    (OpenAIService.formatConversationHistory s h u).getLast? = some ⟨Role.user, u⟩ := by
  constructor
  · rfl
  · unfold OpenAIService.formatConversationHistory
    rw [← List.cons_append, List.getLast?_concat]

/-- C6 (confirmed): messages that agree after lower-casing and deleting
non-word non-space characters get equal cache keys; in particular the two
example messages normalize identically. -/
theorem normalize_respects_case_punct (m1 m2 : Str)
    (hsim : (lowerL m1).filter (fun c => isWordChar c || isSpaceChar c) =
            (lowerL m2).filter (fun c => isWordChar c || isSpaceChar c)) :
    CacheStrategy.normalizeMessage m1 = CacheStrategy.normalizeMessage m2 := by
  unfold CacheStrategy.normalizeMessage
  rw [hsim]

/-- C6 witness: the theorem at the example pair, the first message being
`What's my Savings rate?` (apostrophe written by code point). -/
theorem normalize_respects_case_punct_witness :
    CacheStrategy.normalizeMessage (str "What" ++ [Char.ofNat 39] ++ str "s my Savings rate?") =
      CacheStrategy.normalizeMessage (str "whats my savings rate") :=
  normalize_respects_case_punct _ _ (by decide)

/-- Evaluation of the pricing-table lookup at `gpt-4`. -/
theorem pricingFor_gpt4 : CostTracker.pricingFor (str "gpt-4") = (0.03, 0.06) := by
  unfold CostTracker.pricingFor
  rw [if_neg (by decide), if_pos rfl]

/-- C2 counterexample: with a daily limit of 0.05, a first `trackUsage`
call bringing the total to 60% of budget emits an alert for the 50%
threshold, and a second call the same day (the tracker holds no per-day
alert memory at all) leaving the total at 66% emits a second alert for
the same threshold. -/
theorem trackUsage_realerts_counterexample :
    ((CostTracker.trackUsage (CostTracker.mkTracker 0.05) ⟨1000, 0, 1000⟩
        (str "gpt-4")).2.1) =
      [⟨.info, str "Daily budget 50% reached"⟩] ∧
    ((CostTracker.trackUsage ((CostTracker.trackUsage (CostTracker.mkTracker 0.05)
          ⟨1000, 0, 1000⟩ (str "gpt-4")).1) ⟨100, 0, 100⟩ (str "gpt-4")).2.1) =
      [⟨.info, str "Daily budget 50% reached"⟩] := by
  constructor <;>
    · simp only [CostTracker.trackUsage, CostTracker.mkTracker, CostTracker.calculateCost,
        CostTracker.checkBudgetAlerts, pricingFor_gpt4]
      norm_num

/-- C2 (amended): every `trackUsage` call whose updated daily total
reaches 50% of the daily budget emits exactly one alert — the tracker
keeps no memory of alerts already sent, so each threshold re-alerts on
every qualifying call within the same day instead of at most once per
day. -/
theorem trackUsage_alert_every_call (t : CostTracker.TrackerState) (u : Usage) (m : Str)
    (hband : 50 ≤ (CostTracker.trackUsage t u m).1.totalCost /
      (CostTracker.trackUsage t u m).1.dailyLimit * 100) :
    ((CostTracker.trackUsage t u m).2.1).length = 1 := by
  have halerts : (CostTracker.trackUsage t u m).2.1 =
      CostTracker.checkBudgetAlerts (CostTracker.trackUsage t u m).1 := rfl
  rw [halerts]
  generalize (CostTracker.trackUsage t u m).1 = s at hband
  unfold CostTracker.checkBudgetAlerts
  dsimp only
  split_ifs with h1 h2 <;> simp

/-- C2 witness: the amended theorem at the first call of the
counterexample scenario. -/
theorem trackUsage_alert_every_call_witness :
    50 ≤ (CostTracker.trackUsage (CostTracker.mkTracker 0.05) ⟨1000, 0, 1000⟩
        (str "gpt-4")).1.totalCost /
      (CostTracker.trackUsage (CostTracker.mkTracker 0.05) ⟨1000, 0, 1000⟩
        (str "gpt-4")).1.dailyLimit * 100 ∧
    ((CostTracker.trackUsage (CostTracker.mkTracker 0.05) ⟨1000, 0, 1000⟩
        (str "gpt-4")).2.1).length = 1 := by
  have hb : 50 ≤ (CostTracker.trackUsage (CostTracker.mkTracker 0.05) ⟨1000, 0, 1000⟩
      (str "gpt-4")).1.totalCost /
      (CostTracker.trackUsage (CostTracker.mkTracker 0.05) ⟨1000, 0, 1000⟩
        (str "gpt-4")).1.dailyLimit * 100 := by
    simp only [CostTracker.trackUsage, CostTracker.mkTracker, CostTracker.calculateCost,
      pricingFor_gpt4]
    norm_num
  exact ⟨hb, trackUsage_alert_every_call _ _ _ hb⟩

/-- C8 (confirmed): `calculateCost` follows the two-tier pricing table
exactly, and recording two usages from a fresh tracker accumulates
exactly the sum of their costs. -/
theorem calculateCost_table_and_additive :
    (∀ u : Usage, CostTracker.calculateCost u (str "gpt-3.5-turbo") =
        u.prompt_tokens * 0.0005 / 1000 + u.completion_tokens * 0.0015 / 1000 ∧
      CostTracker.calculateCost u (str "gpt-4") =
        u.prompt_tokens * 0.03 / 1000 + u.completion_tokens * 0.06 / 1000) ∧
    (∀ (d : ℚ) (u1 u2 : Usage) (m : Str),
      ((CostTracker.trackUsage ((CostTracker.trackUsage (CostTracker.mkTracker d)
          u1 m).1) u2 m).1).totalCost =
        CostTracker.calculateCost u1 m + CostTracker.calculateCost u2 m) := by
  constructor
  · intro u
    constructor
    · unfold CostTracker.calculateCost CostTracker.pricingFor
      rw [if_pos rfl]
    · unfold CostTracker.calculateCost
      rw [pricingFor_gpt4]
  · intro d u1 u2 m
    simp only [CostTracker.trackUsage, CostTracker.mkTracker]
    ring

/-- The restricted `calculateCost` agrees with the full JS-semantics
`calculateCostJs` on every model string that is not an
`Object.prototype` member name. -/
theorem calculateCostJs_agrees (u : Usage) (m : Str)
    (h : m ∉ CostTracker.objectProtoMembers) :
    CostTracker.calculateCostJs u m = some (CostTracker.calculateCost u m) := by
  unfold CostTracker.calculateCostJs CostTracker.modelPricingOf CostTracker.pricingAccess
    CostTracker.calculateCost CostTracker.pricingFor
  by_cases h1 : m = str "gpt-3.5-turbo"
  · rw [if_pos h1, if_pos h1]
  · rw [if_neg h1, if_neg h1]
    by_cases h2 : m = str "gpt-4"
    · rw [if_pos h2, if_pos h2]
    · rw [if_neg h2, if_neg h2, if_neg h]

/-- C10 counterexample: `toString` is not a key of the pricing table, yet
`pricing['toString']` is a truthy inherited function, so the
`|| pricing['gpt-3.5-turbo']` fallback never fires and `calculateCost`
returns `NaN` (`none`) instead of the default-rate cost. -/
theorem calculateCostJs_proto_counterexample :
    str "toString" ≠ str "gpt-3.5-turbo" ∧ str "toString" ≠ str "gpt-4" ∧
    CostTracker.calculateCostJs ⟨1000, 500, 1500⟩ (str "toString") = none ∧
    CostTracker.calculateCostJs ⟨1000, 500, 1500⟩ (str "toString") ≠
      some (CostTracker.calculateCost ⟨1000, 500, 1500⟩ (str "gpt-3.5-turbo")) := by
  refine ⟨by decide, by decide, rfl, ?_⟩
  intro h
  exact Option.noConfusion h

/-- C10 (amended): for a model string that is neither a table key nor an
`Object.prototype` member name, the lookup is `undefined`, the fallback
fires, and `calculateCost` returns the `gpt-3.5-turbo`-rate cost; for an
`Object.prototype` member name the inherited lookup is truthy, the
fallback never fires, and the result is `NaN` — so cost calculation is
not total in the claimed sense over arbitrary model strings. -/
theorem calculateCostJs_unknown_model (u : Usage) (m : Str)
    (h1 : m ≠ str "gpt-3.5-turbo") (h2 : m ≠ str "gpt-4") :
    (m ∉ CostTracker.objectProtoMembers →
      CostTracker.calculateCostJs u m =
        some (CostTracker.calculateCost u (str "gpt-3.5-turbo"))) ∧
    (m ∈ CostTracker.objectProtoMembers → CostTracker.calculateCostJs u m = none) := by
  constructor
  · intro hp
    unfold CostTracker.calculateCostJs CostTracker.modelPricingOf CostTracker.pricingAccess
      CostTracker.calculateCost CostTracker.pricingFor
    rw [if_neg h1, if_neg h2, if_neg hp, if_pos rfl]
  · intro hp
    unfold CostTracker.calculateCostJs CostTracker.modelPricingOf CostTracker.pricingAccess
    rw [if_neg h1, if_neg h2, if_pos hp]

/-- C10 witness: the amended theorem at the plain unknown model
`text-davinci-003` (fallback cost) and at the prototype member
`toString` (`NaN`). -/
theorem calculateCostJs_unknown_model_witness :
    CostTracker.calculateCostJs ⟨1000, 500, 1500⟩ (str "text-davinci-003") =
      some (CostTracker.calculateCost ⟨1000, 500, 1500⟩ (str "gpt-3.5-turbo")) ∧
    CostTracker.calculateCostJs ⟨1000, 500, 1500⟩ (str "valueOf") = none :=
  ⟨(calculateCostJs_unknown_model ⟨1000, 500, 1500⟩ (str "text-davinci-003")
      (by decide) (by decide)).1 (by decide),
    (calculateCostJs_unknown_model ⟨1000, 500, 1500⟩ (str "valueOf")
      (by decide) (by decide)).2 (by decide)⟩

/-- C4 counterexample: the gateway's output is identical for a connection
failure, a 4xx status, a 5xx status, and an unparsable 200 body carrying
the same client-library message — so nothing in its failure output can
distinguish the four claimed error classes. -/
theorem generateResponse_no_classification :
    OpenAIService.generateResponse (.connectionError (str "request failed")) =
      OpenAIService.generateResponse (.httpError 400 (str "request failed")) ∧
    OpenAIService.generateResponse (.httpError 400 (str "request failed")) =
      OpenAIService.generateResponse (.httpError 500 (str "request failed")) ∧
    OpenAIService.generateResponse (.httpError 500 (str "request failed")) =
      OpenAIService.generateResponse (.unparsableBody (str "request failed")) :=
  ⟨rfl, rfl, rfl⟩

/-- C4 (amended): on every failing outcome the gateway fails with the
single generic error `OpenAI API Error: <message>`; it performs no
classification into UpstreamUnavailable / UpstreamRejected /
UpstreamError / MalformedResponse. -/
theorem generateResponse_generic_error (o : OpenAIService.UpstreamOutcome) (m : Str)
    (hm : OpenAIService.errMessageOf o = some m) :
    OpenAIService.generateResponse o = .error (str "OpenAI API Error: " ++ m) := by
  cases o <;> simp [OpenAIService.errMessageOf] at hm <;>
    simp [OpenAIService.generateResponse, hm]

/-- C4 witness: the amended theorem at a concrete connection failure. -/
theorem generateResponse_generic_error_witness :
    OpenAIService.errMessageOf (.connectionError (str "socket hang up")) =
      some (str "socket hang up") ∧
    OpenAIService.generateResponse (.connectionError (str "socket hang up")) =
      .error (str "OpenAI API Error: socket hang up") :=
  ⟨rfl, (generateResponse_generic_error (.connectionError (str "socket hang up"))
      (str "socket hang up") rfl).trans (congrArg Except.error (by decide))⟩

/-- C7 counterexample: `CacheStrategy.getCachedResponse` has no
`try`/`catch`, so a backing-store error during the lookup is propagated
to the caller instead of being treated as "absent". -/
theorem cacheStrategy_propagates_store_error :
    @CacheStrategy.getCachedResponse ℕ (fun _ => .error (str "redis unavailable"))
        (fun _ => .ok none) (fun _ => .error []) (str "hello") =
      .error (str "redis unavailable") ∧
    @CacheStrategy.getCachedResponse ℕ (fun _ => .error (str "redis unavailable"))
        (fun _ => .ok none) (fun _ => .error []) (str "hello") ≠ .ok none := by
  refine ⟨rfl, ?_⟩
  intro h
  simp [CacheStrategy.getCachedResponse, CacheStrategy.normalizeMessage] at h

/-- C7 (amended): the fail-open guarantee holds for
`CacheService.getCachedResponse`, whose lookup is wrapped in a
`try`/`catch`: whenever the backing store errors, the result is `none`
(absent) for every parser and message — but not for
`CacheStrategy.getCachedResponse`, which propagates the error. -/
theorem cacheService_fail_open (store : Str → StoreRes)
    (parse : Str → Option CachedResponse) (userMessage : Str) (e : Str)
    (herr : store (CacheService.createCacheKey userMessage) = .error e) :
    CacheService.getCachedResponse store parse userMessage = none := by
  simp only [CacheService.getCachedResponse]
  rw [herr]

/-- C7 witness: the amended theorem at a concrete always-failing store. -/
theorem cacheService_fail_open_witness :
    (fun _ : Str => (.error (str "boom") : StoreRes))
        (CacheService.createCacheKey (str "hi")) = .error (str "boom") ∧
    CacheService.getCachedResponse (fun _ => .error (str "boom")) (fun _ => none)
        (str "hi") = none :=
  ⟨rfl, cacheService_fail_open _ _ _ _ rfl⟩

end BankGPT
